import Mathlib

/-!
Shallow embedding of the form-automation repository: the field resolver,
value filler and fill-form session of form_filler.py, the template header
round trip of form_analyzer.py, and the batch submitter of
bdo_form_filler.py.  Browser-driver interactions (per-strategy lookup
results, read-backs after an input attempt, per-row submit outcomes,
per-tab confirmation outcomes) are modelled as explicit oracles passed to
the embedded functions; everything else follows the Python source line by
line.
-/

namespace FormAutomation

/-- Boolean test that the first character list is an initial segment of the
second. -/
def leadMatch : List Char → List Char → Bool
  | [], _ => true
  | _ :: _, [] => false
  | a :: xs, b :: ys => a == b && leadMatch xs ys

/-- Boolean substring-occurrence test mirroring the Python `in` operator on
strings; in particular the empty needle occurs in every string. -/
def subMatch (needle : List Char) : List Char → Bool
  | [] => leadMatch needle []
  | b :: bs => leadMatch needle (b :: bs) || subMatch needle bs

/-- Lowercasing of a string, character by character, as a character list. -/
def lowerStr (s : String) : List Char :=
  s.toList.map Char.toLower

/-- Embedding of FormFiller.normalize_string: lowercase the text, then keep
only the ASCII alphanumeric characters (the regex class [a-zA-Z0-9]). -/
def normalize_string (s : String) : List Char :=
  (lowerStr s).filter Char.isAlphanum

/-- Embedding of FormFiller.strings_similar: mutual substring containment of
the two normalized forms. -/
def strings_similar (s1 s2 : String) : Bool :=
  subMatch (normalize_string s1) (normalize_string s2) ||
    subMatch (normalize_string s2) (normalize_string s1)

/-- Model of a candidate page element as seen by the fuzzy fallback of
find_field_by_multiple_strategies: the four inspected attributes (`none` for
an absent attribute), the text of the label elements returned by the
nearby-label XPath query, and whether is_displayed and is_enabled both
hold. -/
structure Elem where
  name : Option String
  id : Option String
  placeholder : Option String
  ariaLabel : Option String
  nearbyLabels : List String
  visibleEnabled : Bool
deriving DecidableEq

/-- Driver-side failure kinds for a single strategy lookup: the two exception
types the strategy loop catches, and every other driver exception (invalid
selector built from the interpolated label, stale element, lost
connection). -/
inductive FindErr
  | noSuchElement
  | notInteractable
  | other
deriving DecidableEq

/-- Embedding of the eight-strategy loop of
find_field_by_multiple_strategies: each list entry is the driver's answer
for one (by, selector) pair, in strategy order.  A found element is returned
when displayed and enabled; NoSuchElementException and
ElementNotInteractableException continue with the next strategy; any other
exception propagates out of the loop (modelled as `Except.error`). -/
def tryStrategies : List (Except FindErr Elem) → Except FindErr (Option Elem)
  | [] => .ok none
  | .ok e :: rest => if e.visibleEnabled then .ok (some e) else tryStrategies rest
  | .error .noSuchElement :: rest => tryStrategies rest
  | .error .notInteractable :: rest => tryStrategies rest
  | .error .other :: _ => .error .other

/-- Truthiness test of the Python guard `if attr_value`: the attribute is
present and non-empty. -/
def attrNonempty : Option String → Bool
  | some v => v != ""
  | none => false

/-- Acceptance test of the fuzzy fallback for one attribute value:
`if attr_value and self.strings_similar(label, attr_value)`. -/
def attrOk (label : String) : Option String → Bool
  | some v => v != "" && strings_similar label v
  | none => false

/-- Attribute part of the fuzzy fallback: one of name/id/placeholder/
aria-label is present, non-empty and similar to the looked-up label. -/
def attrMatches (label : String) (e : Elem) : Bool :=
  [e.name, e.id, e.placeholder, e.ariaLabel].any (attrOk label)

/-- Nearby-label part of the fuzzy fallback: the text of some associated
label element is similar to the looked-up label. -/
def nearbyMatches (label : String) (e : Elem) : Bool :=
  e.nearbyLabels.any fun t => strings_similar label t

/-- Fuzzy fallback of the resolver: the first candidate in document order
accepted by the attribute check or by the nearby-label check. -/
def fuzzyFind (label : String) (inputs : List Elem) : Option Elem :=
  inputs.find? fun e => attrMatches label e || nearbyMatches label e

/-- Whole resolver find_field_by_multiple_strategies: the eight ordered
strategies, then the fuzzy fallback (whose own exceptions the source catches
with a bare warning, so the fallback itself never throws). -/
def find_field (res : List (Except FindErr Elem)) (label : String)
    (inputs : List Elem) : Except FindErr (Option Elem) :=
  match tryStrategies res with
  | .ok (some e) => .ok (some e)
  | .ok none => .ok (fuzzyFind label inputs)
  | .error err => .error err

/-- Predicate on a single strategy outcome: one the loop survives, that is a
caught exception or an element rejected as not displayed or not enabled. -/
def caughtOrInvisible : Except FindErr Elem → Bool
  | .error .noSuchElement => true
  | .error .notInteractable => true
  | .ok e => !e.visibleEnabled
  | .error .other => false

/-- Candidate filter used by claim C10: some inspected attribute is present
and non-empty. -/
def hasNonemptyAttr (e : Elem) : Bool :=
  attrNonempty e.name || attrNonempty e.id ||
    attrNonempty e.placeholder || attrNonempty e.ariaLabel

/-- The three input methods of safe_send_keys, in attempt order. -/
inductive InputMethod
  | typing
  | jsAssign
  | actionChains
deriving DecidableEq

/-- Input method used by attempt number `i` of safe_send_keys. -/
def attemptMethod : Nat → InputMethod
  | 0 => .typing
  | 1 => .jsAssign
  | _ => .actionChains

/-- Embedding of FormFiller.safe_send_keys.  `rb i` is the element's value
attribute read back after attempt `i` (`none` models an exception raised
inside the attempt, which the loop catches before the read-back).  The
result is the index of the first attempt whose read-back equals the intended
value; `none` models the final `raise ValueError` after the three
attempts. -/
def safe_send_keys (rb : Nat → Option String) (v : String) : Option Nat :=
  if rb 0 = some v then some 0
  else if rb 1 = some v then some 1
  else if rb 2 = some v then some 2
  else none

/-- Excel cell as seen by fill_field: pandas NaN / None, or a scalar already
rendered through str(). -/
inductive Cell
  | na
  | val (s : String)
deriving DecidableEq

/-- Embedding of `str(value) if pd.notna(value) and value is not None else ""`
at the top of fill_field. -/
def strOfCell : Cell → String
  | .na => ""
  | .val s => s

/-- Value written by fill_field to a resolved element: the early-return guard
`if not str_value: return` produces no write for NaN and for the empty
string. -/
def fill_field_acts (c : Cell) : Option String :=
  if strOfCell c == "" then none else some (strOfCell c)

/-- Desired checkbox state of fill_field:
`str_value.lower() in ('true', 'yes', '1', 'on')`. -/
def checkboxDesired (v : String) : Bool :=
  lowerStr v == "true".toList || lowerStr v == "yes".toList ||
    lowerStr v == "1".toList || lowerStr v == "on".toList

/-- Checkbox branch of fill_field on a non-empty rendered value: click
exactly when the current selected state differs from the desired one.
Result is (clicked, new selected state). -/
def fillCheckbox (current : Bool) (v : String) : Bool × Bool :=
  if current != checkboxDesired v then (true, !current) else (false, current)

/-- Checkbox fill including the empty-value early return of fill_field. -/
def fill_field_checkbox (current : Bool) (c : Cell) : Bool × Bool :=
  if strOfCell c == "" then (false, current) else fillCheckbox current (strOfCell c)

/-- Observable events of one fill_form session. -/
inductive Ev
  | nav
  | fillField (row col : Nat) (written : Option String)
  | fieldNotFound (row col : Nat)
  | submit (row : Nat) (ok : Bool)
deriving DecidableEq

/-- Event produced for one column of one row of fill_form: NaN values are
skipped before any resolution; otherwise the field is resolved (oracle
`resolved`) and filled, or logged as missing and skipped. -/
def colEvent (resolved : Nat → Nat → Bool) (row col : Nat) : Cell → Option Ev
  | .na => none
  | .val s =>
      if resolved row col then some (.fillField row col (fill_field_acts (.val s)))
      else some (.fieldNotFound row col)

/-- Events produced by the per-column loop of fill_form on one row. -/
def rowEvents (resolved : Nat → Nat → Bool) (row : Nat) (cells : List Cell) :
    List Ev :=
  cells.enum.filterMap fun pc => colEvent resolved row pc.1 pc.2

/-- Per-row loop of fill_form starting at row index `idx`: fill the fields,
attempt the submit, and navigate again only when the submit succeeded and
rows remain (`if idx < total_rows - 1`). -/
def sessionGo (resolved : Nat → Nat → Bool) (submitOk : Nat → Bool) :
    Nat → List (List Cell) → List Ev
  | _, [] => []
  | idx, r :: rest =>
      rowEvents resolved idx r ++
        Ev.submit idx (submitOk idx) ::
          ((if submitOk idx && !rest.isEmpty then [Ev.nav] else []) ++
            sessionGo resolved submitOk (idx + 1) rest)

/-- Trace of FormFiller.fill_form: one unconditional initial navigation, then
the per-row loop. -/
def sessionTrace (resolved : Nat → Nat → Bool) (submitOk : Nat → Bool)
    (rows : List (List Cell)) : List Ev :=
  Ev.nav :: sessionGo resolved submitOk 0 rows

/-- Header written by FormAnalyzer.create_excel_template for one analyzed
field: the label, with the marker appended when the field is required. -/
def makeHeader (label : List Char) (required : Bool) : List Char :=
  if required then label ++ [' ', '*'] else label

/-- Embedding of the header cleaning step `field_name.replace(' *', '')` of
fill_form: left-to-right removal of every occurrence of the two-character
required marker. -/
def stripReqMarker : List Char → List Char
  | [] => []
  | [c] => [c]
  | c :: d :: rest =>
      if c == ' ' && d == '*' then stripReqMarker rest
      else c :: stripReqMarker (d :: rest)

/-- Embedding of bdo_form_filler.process_batch.  `ok p` is the per-tab
outcome for phone number `p`: whether the confirmation control became
clickable within its timeout.  The first batch takes 20 numbers (the batch
size is 20 while successful and failed are both still empty), later batches
take `maxTabs`; every number of a batch is appended to exactly one of the
two result lists.  The fuel argument only bounds the number of loop
iterations so the definition is total; `process_batch` supplies fuel that is
never exhausted for a positive tab bound.  The returned triple also records
the list of batches in order. -/
def processBatchAux (ok : String → Bool) (maxTabs : Nat) :
    Nat → List String → List String → List String →
      List (List String) × List String × List String
  | _, [], succ, fl => ([], succ, fl)
  | 0, _ :: _, succ, fl => ([], succ, fl)
  | fuel + 1, p :: ps, succ, fl =>
      let batchSize := if succ.length + fl.length == 0 then 20 else maxTabs
      let batch := (p :: ps).take batchSize
      let rest := (p :: ps).drop batchSize
      let out := processBatchAux ok maxTabs fuel rest
        (succ ++ batch.filter ok) (fl ++ batch.filter fun q => !(ok q))
      (batch :: out.1, out.2.1, out.2.2)

/-- Top-level process_batch: start with empty successful and failed lists. -/
def process_batch (ok : String → Bool) (phones : List String) (maxTabs : Nat) :
    List (List String) × List String × List String :=
  processBatchAux ok maxTabs phones.length phones [] []

/-- Rows of form_results.xlsx as built in main: the successful numbers
labeled success, then the failed numbers labeled failed. -/
def resultsRows (succ fl : List String) : List (String × String) :=
  succ.map (fun s => (s, "success")) ++ fl.map (fun s => (s, "failed"))

/-! Concrete fixtures used by witnesses and counterexamples. -/

/-- Read-back oracle whose second attempt succeeds for the value "ok". -/
def rbW : Nat → Option String := fun n => if n == 1 then some "ok" else some "no"

/-- Read-back oracle for which every attempt fails. -/
def rbFail : Nat → Option String := fun _ => none

/-- Strategy outcomes on a page where all eight lookups find nothing. -/
def allNoSuch : List (Except FindErr Elem) :=
  List.replicate 8 (.error .noSuchElement)

/-- Strategy outcomes where the first lookup raises a non-caught driver
error (for example an invalid selector built from the label) and the
remaining seven find nothing. -/
def badRes : List (Except FindErr Elem) :=
  .error .other :: List.replicate 7 (.error .noSuchElement)

/-- Visible candidate with no usable attribute but one associated label
whose text is "mobile". -/
def eA : Elem := ⟨none, none, none, none, ["mobile"], true⟩

/-- Visible candidate whose name attribute is "mobile". -/
def eB : Elem := ⟨some "mobile", none, none, none, [], true⟩

/-- Visible candidate whose name attribute is "phone". -/
def eC : Elem := ⟨some "phone", none, none, none, [], true⟩

/-- Resolution oracle that finds every field. -/
def resolvedAll : Nat → Nat → Bool := fun _ _ => true

/-- Submit oracle for which every submit attempt fails. -/
def submitFail : Nat → Bool := fun _ => false

/-- Two one-column rows, both with the value "x". -/
def rows2 : List (List Cell) := [[Cell.val "x"], [Cell.val "x"]]

/-- Twenty-five phone numbers: twenty copies of "a" and five of "b". -/
def phonesW : List String := List.replicate 20 "a" ++ List.replicate 5 "b"

/-- Confirmation oracle that accepts exactly the number "a". -/
def okW : String → Bool := fun s => s == "a"

/-! Helper lemmas shared by the claim theorems. -/

theorem subMatch_nil_needle (l : List Char) : subMatch [] l = true := by
  cases l <;> simp [subMatch, leadMatch]

theorem subMatch_cons_false {n : List Char} {c : Char} {cs : List Char}
    (h : subMatch n (c :: cs) = false) :
    leadMatch n (c :: cs) = false ∧ subMatch n cs = false := by
  rw [subMatch] at h
  exact Bool.or_eq_false_iff.mp h

theorem stripReqMarker_no_marker :
    ∀ l : List Char, subMatch [' ', '*'] l = false → stripReqMarker l = l := by
  intro l
  induction l with
  | nil => intro _; rfl
  | cons c cs ih =>
    intro h
    obtain ⟨hlead, hsub⟩ := subMatch_cons_false h
    cases cs with
    | nil => rfl
    | cons d ds =>
      have hcd : (c == ' ' && d == '*') = false := by
        cases hc : c == ' ' with
        | false => simp [hc]
        | true =>
          cases hd : d == '*' with
          | false => simp [hd]
          | true =>
            exfalso
            have hc2 : c = ' ' := by simpa using hc
            have hd2 : d = '*' := by simpa using hd
            simp [leadMatch, hc2, hd2] at hlead
      rw [stripReqMarker, hcd]
      simp only [Bool.false_eq_true, if_false]
      rw [ih hsub]

theorem stripReqMarker_append_marker :
    ∀ l : List Char, subMatch [' ', '*'] l = false →
      stripReqMarker (l ++ [' ', '*']) = l := by
  intro l
  induction l with
  | nil => intro _; rfl
  | cons c cs ih =>
    intro h
    obtain ⟨hlead, hsub⟩ := subMatch_cons_false h
    cases cs with
    | nil =>
      have : stripReqMarker ([c] ++ [' ', '*']) = c :: stripReqMarker [' ', '*'] := by
        rw [show ([c] ++ [' ', '*'] : List Char) = c :: ' ' :: ['*'] from rfl,
          stripReqMarker]
        have hc : (c == ' ' && ' ' == '*') = false := by simp
        rw [hc]
        simp
      rw [this]
      rfl
    | cons d ds =>
      have hcd : (c == ' ' && d == '*') = false := by
        cases hc : c == ' ' with
        | false => simp [hc]
        | true =>
          cases hd : d == '*' with
          | false => simp [hd]
          | true =>
            exfalso
            have hc2 : c = ' ' := by simpa using hc
            have hd2 : d = '*' := by simpa using hd
            simp [leadMatch, hc2, hd2] at hlead
      rw [show ((c :: d :: ds) ++ [' ', '*'] : List Char)
          = c :: d :: (ds ++ [' ', '*']) from rfl, stripReqMarker, hcd]
      simp only [Bool.false_eq_true, if_false]
      rw [show (d :: (ds ++ [' ', '*']) : List Char)
          = (d :: ds) ++ [' ', '*'] from rfl, ih hsub]

/-! Claim theorems. -/

/-- C2: safe_send_keys tries its three input strategies in order (simulated
typing, script value assignment, pointer move-click-type), each followed by
a read-back; it returns success exactly at the first attempt whose read-back
equals the intended value, and raises (returns `none`) precisely when no
attempt's read-back equals the value after all three tries. -/
theorem safe_send_keys_first_match (rb : Nat → Option String) (v : String) :
    (∀ i, safe_send_keys rb v = some i →
      rb i = some v ∧ ∀ j, j < i → rb j ≠ some v)
    ∧ (safe_send_keys rb v = none ↔ ∀ i, i < 3 → rb i ≠ some v)
    ∧ attemptMethod 0 = InputMethod.typing
    ∧ attemptMethod 1 = InputMethod.jsAssign
    ∧ attemptMethod 2 = InputMethod.actionChains := by
  refine ⟨?_, ?_, rfl, rfl, rfl⟩
  · intro i hi
    unfold safe_send_keys at hi
    by_cases h0 : rb 0 = some v
    · simp [h0] at hi
      subst hi
      exact ⟨h0, fun j hj => absurd hj (by omega)⟩
    · by_cases h1 : rb 1 = some v
      · simp [h0, h1] at hi
        subst hi
        refine ⟨h1, fun j hj => ?_⟩
        have : j = 0 := by omega
        subst this
        exact h0
      · by_cases h2 : rb 2 = some v
        · simp [h0, h1, h2] at hi
          subst hi
          refine ⟨h2, fun j hj => ?_⟩
          have : j = 0 ∨ j = 1 := by omega
          rcases this with rfl | rfl
          · exact h0
          · exact h1
        · simp [h0, h1, h2] at hi
  · constructor
    · intro hn
      unfold safe_send_keys at hn
      by_cases h0 : rb 0 = some v
      · simp [h0] at hn
      · by_cases h1 : rb 1 = some v
        · simp [h0, h1] at hn
        · by_cases h2 : rb 2 = some v
          · simp [h0, h1, h2] at hn
          · intro i hi
            have : i = 0 ∨ i = 1 ∨ i = 2 := by omega
            rcases this with rfl | rfl | rfl
            · exact h0
            · exact h1
            · exact h2
    · intro hall
      have h0 := hall 0 (by omega)
      have h1 := hall 1 (by omega)
      have h2 := hall 2 (by omega)
      simp [safe_send_keys, h0, h1, h2]

/-- C2 witness: a read-back oracle whose second attempt succeeds makes
safe_send_keys stop at attempt 1, and an oracle with no matching read-back
makes it raise. -/
theorem safe_send_keys_first_match_witness :
    rbW 1 = some "ok" ∧ safe_send_keys rbFail "ok" = none :=
  ⟨((safe_send_keys_first_match rbW "ok").1 1 (by decide)).1,
    ((safe_send_keys_first_match rbFail "ok").2.1).mpr (by decide)⟩

/-- C4 (amended): a NaN cell is skipped by fill_form before any element
interaction, an explicitly empty-string cell is also skipped by the
`if not str_value: return` guard of fill_field (it is not written), and any
write that does happen carries a non-empty string — no empty-string write
ever occurs. -/
theorem blank_values_never_written (resolved : Nat → Nat → Bool)
    (row col : Nat) (c : Cell) :
    colEvent resolved row col Cell.na = none
    ∧ fill_field_acts Cell.na = none
    ∧ fill_field_acts (Cell.val "") = none
    ∧ (fill_field_acts c = none
        ∨ ∃ s, fill_field_acts c = some s ∧ 0 < s.length) := by
  refine ⟨rfl, rfl, rfl, ?_⟩
  cases c with
  | na => exact Or.inl rfl
  | val s =>
    by_cases h : s = ""
    · subst h
      exact Or.inl rfl
    · refine Or.inr ⟨s, ?_, ?_⟩
      · simp [fill_field_acts, strOfCell, h]
      · rw [← String.length_data]
        refine List.length_pos.mpr fun hnil => h (String.ext ?_)
        rw [hnil]

/-- C4 counterexample: an explicitly empty-string value produces no write at
all — fill_field returns before interacting with the element — contradicting
the claim that empty-string values are written. -/
theorem empty_string_write_cex :
    fill_field_acts (Cell.val "") = none
    ∧ colEvent resolvedAll 0 0 (Cell.val "") = some (Ev.fillField 0 0 none) :=
  ⟨rfl, rfl⟩

/-- C6: checkbox fill is idempotent — a second fill with the same value never
clicks and leaves the state of the first fill unchanged; the element is
clicked exactly when the current state differs from the desired one, the
resulting state is the desired boolean, and the desired boolean is true
exactly when the lowercase form of the value is one of true/yes/1/on. -/
theorem checkbox_fill_idempotent (current : Bool) (c : Cell) (v : String) :
    (fill_field_checkbox (fill_field_checkbox current c).2 c).2
      = (fill_field_checkbox current c).2
    ∧ (fill_field_checkbox (fill_field_checkbox current c).2 c).1 = false
    ∧ (fillCheckbox current v).1 = !(current == checkboxDesired v)
    ∧ (fillCheckbox current v).2 = checkboxDesired v
    ∧ (checkboxDesired v = true ↔
        (lowerStr v = "true".toList ∨ lowerStr v = "yes".toList ∨
          lowerStr v = "1".toList ∨ lowerStr v = "on".toList)) := by
  have hfill : ∀ (b : Bool) (w : String),
      (fillCheckbox b w).1 = !(b == checkboxDesired w)
        ∧ (fillCheckbox b w).2 = checkboxDesired w := by
    intro b w
    unfold fillCheckbox
    cases b <;> cases h : checkboxDesired w <;> simp [h]
  refine ⟨?_, ?_, (hfill current v).1, (hfill current v).2, ?_⟩
  · by_cases h : strOfCell c = ""
    · simp [fill_field_checkbox, h]
    · simp only [fill_field_checkbox, h, if_neg, beq_eq_false_iff_ne, ne_eq,
        not_false_eq_true, if_false]
      rw [if_neg (by simpa using h), if_neg (by simpa using h)]
      rw [(hfill current (strOfCell c)).2, (hfill (checkboxDesired (strOfCell c))
        (strOfCell c)).2]
  · by_cases h : strOfCell c = ""
    · simp [fill_field_checkbox, h]
    · rw [fill_field_checkbox, fill_field_checkbox,
        if_neg (by simpa using h), if_neg (by simpa using h),
        (hfill current (strOfCell c)).2, (hfill (checkboxDesired (strOfCell c))
          (strOfCell c)).1]
      simp
  · simp [checkboxDesired, or_assoc]

/-- C9 (amended): for every label that does not itself contain the
two-character marker " *" as a substring, the Session's header cleaning
recovers the original label from the Analyzer's header, required or not. -/
theorem header_roundtrip (label : List Char) (required : Bool)
    (h : subMatch [' ', '*'] label = false) :
    stripReqMarker (makeHeader label required) = label := by
  cases required with
  | false =>
    rw [show makeHeader label false = label from rfl]
    exact stripReqMarker_no_marker label h
  | true =>
    rw [show makeHeader label true = label ++ [' ', '*'] from rfl]
    exact stripReqMarker_append_marker label h

/-- C9 witness: the header of a required field labeled "Email" cleans back
to "Email". -/
theorem header_roundtrip_witness :
    stripReqMarker (makeHeader "Email".toList true) = "Email".toList :=
  header_roundtrip "Email".toList true (by decide)

/-- C9 counterexample: a non-required field whose label is "A *B" produces
the header "A *B", which the cleaning step turns into "AB", so the original
label is not recovered. -/
theorem header_roundtrip_cex :
    makeHeader "A *B".toList false = "A *B".toList
    ∧ stripReqMarker (makeHeader "A *B".toList false) = "AB".toList
    ∧ "AB".toList ≠ "A *B".toList := by
  refine ⟨rfl, by decide, by decide⟩

theorem tryStrategies_all_survived :
    ∀ res : List (Except FindErr Elem), res.all caughtOrInvisible = true →
      tryStrategies res = .ok none := by
  intro res
  induction res with
  | nil => intro _; rfl
  | cons r rest ih =>
    intro h
    rw [List.all_cons] at h
    obtain ⟨h1, h2⟩ := Bool.and_eq_true_iff.mp h
    cases r with
    | ok e =>
      have hv : e.visibleEnabled = false := by
        simpa [caughtOrInvisible] using h1
      simp [tryStrategies, hv, ih h2]
    | error err =>
      cases err with
      | noSuchElement => simpa [tryStrategies] using ih h2
      | notInteractable => simpa [tryStrategies] using ih h2
      | other => simp [caughtOrInvisible] at h1

theorem find?_first_characterization {α : Type} (p : α → Bool) :
    ∀ (l : List α) (x : α), l.find? p = some x →
      p x = true ∧ ∃ pre post, l = pre ++ x :: post ∧ ∀ y ∈ pre, p y = false := by
  intro l
  induction l with
  | nil => intro x h; simp [List.find?] at h
  | cons a t ih =>
    intro x h
    cases hp : p a with
    | true =>
      simp [List.find?_cons, hp] at h
      subst h
      exact ⟨hp, [], t, rfl, by simp⟩
    | false =>
      simp [List.find?_cons, hp] at h
      obtain ⟨hx, pre, post, heq, hpre⟩ := ih x h
      refine ⟨hx, a :: pre, post, by rw [heq]; rfl, ?_⟩
      intro y hy
      rcases List.mem_cons.mp hy with rfl | hy2
      · exact hp
      · exact hpre y hy2

/-- C3 (amended): when every one of the eight strategy lookups fails with
one of the two caught exception kinds (or finds only an element that is not
displayed or not enabled), and the fuzzy fallback matches nothing, the
resolver returns None without throwing.  (A lookup failing with any other
driver error propagates to the caller — see the counterexample.) -/
theorem resolver_all_fail_returns_none (res : List (Except FindErr Elem))
    (label : String) (inputs : List Elem)
    (hres : res.all caughtOrInvisible = true)
    (hfz : fuzzyFind label inputs = none) :
    find_field res label inputs = .ok none := by
  unfold find_field
  rw [tryStrategies_all_survived res hres]
  simp [hfz]

/-- C3 witness: on a page where all eight lookups raise
NoSuchElementException and no fuzzy candidates exist, the resolver returns
None. -/
theorem resolver_all_fail_witness :
    find_field allNoSuch "Phone" ([] : List Elem) = .ok none :=
  resolver_all_fail_returns_none allNoSuch "Phone" [] (by decide) rfl

/-- C3 counterexample: when the first strategy lookup raises a driver error
other than the two caught exception types (for example an invalid selector
built from a label containing a quote character), the resolver propagates
the exception instead of returning None, even though no element on the page
matches the label. -/
theorem resolver_uncaught_error_cex :
    find_field badRes "Mobile" ([] : List Elem) = .error .other
    ∧ find_field badRes "Mobile" ([] : List Elem) ≠ .ok none := by
  refine ⟨rfl, fun h => ?_⟩
  exact Except.noConfusion h

/-- C7 (amended): when all eight strategies fail with caught errors and the
fuzzy fallback finds a candidate, the resolver returns the first candidate
in document order accepted by the attribute containment check or by the
nearby-label text containment check; every earlier candidate fails both
checks.  (The claim's attribute-only characterization is refuted by the
counterexample.) -/
theorem fuzzy_accepts_first_match (label : String) (inputs : List Elem)
    (res : List (Except FindErr Elem)) (e : Elem)
    (hres : res.all caughtOrInvisible = true)
    (hfz : fuzzyFind label inputs = some e) :
    find_field res label inputs = .ok (some e)
    ∧ (attrMatches label e || nearbyMatches label e) = true
    ∧ ∃ pre post, inputs = pre ++ e :: post
        ∧ ∀ x ∈ pre, attrMatches label x = false ∧ nearbyMatches label x = false := by
  obtain ⟨hpx, pre, post, heq, hpre⟩ :=
    find?_first_characterization _ inputs e hfz
  refine ⟨?_, hpx, pre, post, heq, ?_⟩
  · unfold find_field
    rw [tryStrategies_all_survived res hres]
    simp [hfz]
  · intro x hx
    exact Bool.or_eq_false_iff.mp (hpre x hx)

/-- C7 witness: with all strategies failing and one visible candidate whose
name attribute is "phone", the label "Phone" resolves to that candidate via
the fuzzy fallback. -/
theorem fuzzy_accepts_first_match_witness :
    find_field allNoSuch "Phone" [eC] = .ok (some eC)
    ∧ (attrMatches "Phone" eC || nearbyMatches "Phone" eC) = true
    ∧ ∃ pre post, [eC] = pre ++ eC :: post
        ∧ ∀ x ∈ pre, attrMatches "Phone" x = false ∧ nearbyMatches "Phone" x = false :=
  fuzzy_accepts_first_match "Phone" [eC] allNoSuch eC (by decide) (by decide)

/-- C7 counterexample: the fuzzy fallback accepts a candidate with no
matching (indeed no present) attribute, because one of its nearby labels
matches, even though a later candidate has a matching name attribute — so
acceptance is not characterized by attribute containment alone. -/
theorem fuzzy_nearby_label_cex :
    fuzzyFind "Mobile" [eA, eB] = some eA
    ∧ attrMatches "Mobile" eA = false
    ∧ attrMatches "Mobile" eB = true := by
  decide

theorem similar_of_empty_normal {label : String}
    (hn : normalize_string label = []) (s : String) :
    strings_similar label s = true := by
  simp [strings_similar, hn, subMatch_nil_needle]

theorem attrMatches_of_empty_normal {label : String}
    (hn : normalize_string label = []) (e : Elem) :
    attrMatches label e = hasNonemptyAttr e := by
  have hattr : ∀ a : Option String, attrOk label a = attrNonempty a := by
    intro a
    cases a with
    | none => rfl
    | some v => simp [attrOk, attrNonempty, similar_of_empty_normal hn v]
  simp [attrMatches, hasNonemptyAttr, hattr, Bool.or_assoc]

theorem nearbyMatches_of_empty_normal {label : String}
    (hn : normalize_string label = []) (e : Elem) :
    nearbyMatches label e = !e.nearbyLabels.isEmpty := by
  unfold nearbyMatches
  cases h : e.nearbyLabels with
  | nil => simp
  | cons a t => simp [similar_of_empty_normal hn]

theorem find?_pred_congr {α : Type} (p q : α → Bool) :
    ∀ l : List α, (∀ x, p x = q x) → l.find? p = l.find? q := by
  intro l h
  induction l with
  | nil => rfl
  | cons a t ih => rw [List.find?_cons, List.find?_cons, h a, ih]

/-- C10 (amended): for a label whose normalized form is empty, the
similarity test accepts every string, so the fuzzy fallback returns the
first candidate that has a non-empty name/id/placeholder/aria-label
attribute or at least one associated nearby label; in particular, on a page
with at least one candidate bearing a non-empty attribute, it never returns
NotFound.  (The claim that the returned element is the first
attribute-bearing one is refuted by the counterexample.) -/
theorem empty_normal_label_matches_all (label s : String) (inputs : List Elem)
    (hn : normalize_string label = []) :
    strings_similar label s = true
    ∧ fuzzyFind label inputs
        = inputs.find? (fun e => hasNonemptyAttr e || !e.nearbyLabels.isEmpty)
    ∧ (inputs.any hasNonemptyAttr = true → fuzzyFind label inputs ≠ none) := by
  have hpred : ∀ e : Elem,
      (attrMatches label e || nearbyMatches label e)
        = (hasNonemptyAttr e || !e.nearbyLabels.isEmpty) := by
    intro e
    rw [attrMatches_of_empty_normal hn, nearbyMatches_of_empty_normal hn]
  refine ⟨similar_of_empty_normal hn s, ?_, ?_⟩
  · unfold fuzzyFind
    exact find?_pred_congr _ _ inputs hpred
  · intro hany
    obtain ⟨x, hx, hpx⟩ := List.any_eq_true.mp hany
    refine Option.isSome_iff_ne_none.mp ?_
    refine List.find?_isSome.mpr ⟨x, hx, ?_⟩
    rw [hpred x, hpx]
    rfl

/-- C10 witness: the all-punctuation label "..." normalizes to the empty
string, matches any attribute string, and resolves on a one-candidate page
with a non-empty name attribute. -/
theorem empty_normal_label_matches_all_witness :
    strings_similar "..." "anything" = true
    ∧ fuzzyFind "..." [eB]
        = [eB].find? (fun e => hasNonemptyAttr e || !e.nearbyLabels.isEmpty)
    ∧ ([eB].any hasNonemptyAttr = true → fuzzyFind "..." [eB] ≠ none) :=
  empty_normal_label_matches_all "..." "anything" [eB] (by decide)

/-- C10 counterexample: for the empty-normalizing label "...", the fuzzy
fallback returns a candidate with no non-empty attribute (accepted through
its nearby label) although a later candidate is the first one bearing a
non-empty attribute — the claim's "first such element" is not returned. -/
theorem empty_label_first_attr_cex :
    normalize_string "..." = []
    ∧ fuzzyFind "..." [eA, eB] = some eA
    ∧ hasNonemptyAttr eA = false
    ∧ hasNonemptyAttr eB = true := by
  decide

theorem submit_beq_nav (i : Nat) (b : Bool) : (Ev.submit i b == Ev.nav) = false := rfl

theorem nav_beq_nav : (Ev.nav == Ev.nav) = true := rfl

theorem nav_not_in_rowEvents (resolved : Nat → Nat → Bool) (row : Nat)
    (cells : List Cell) : Ev.nav ∉ rowEvents resolved row cells := by
  intro hmem
  unfold rowEvents at hmem
  rw [List.mem_filterMap] at hmem
  obtain ⟨pc, _, heq⟩ := hmem
  rcases pc with ⟨col, c⟩
  cases c with
  | na => simp [colEvent] at heq
  | val s =>
    simp only [colEvent] at heq
    split at heq <;> simp at heq

theorem sessionGo_nav_count (resolved : Nat → Nat → Bool)
    (submitOk : Nat → Bool) :
    ∀ (rows : List (List Cell)) (start : Nat),
      (sessionGo resolved submitOk start rows).count Ev.nav
        = ((List.range' start (rows.length - 1)).filter
            (fun i => submitOk i)).length := by
  intro rows
  induction rows with
  | nil => intro start; simp [sessionGo]
  | cons r rest ih =>
    intro start
    have hrow : (rowEvents resolved start r).count Ev.nav = 0 :=
      List.count_eq_zero.mpr (nav_not_in_rowEvents resolved start r)
    cases rest with
    | nil =>
      simp [sessionGo, List.count_append, List.count_cons, hrow]
    | cons r2 rest2 =>
      have hih := ih (start + 1)
      rw [show ((r :: r2 :: rest2 : List (List Cell)).length - 1)
          = ((r2 :: rest2 : List (List Cell)).length - 1) + 1 by simp,
        List.range'_succ, sessionGo, List.count_append, List.count_cons, hrow,
        List.filter_cons]
      by_cases hs : submitOk start
      · simp [hs, List.count_append, List.count_cons, hih, submit_beq_nav,
          nav_beq_nav]
      · simp [hs, List.count_append, List.count_cons, hih, submit_beq_nav]

/-- C5 (amended): the session trace starts with one unconditional navigation
before the first row; after that, a navigation happens before a subsequent
row exactly when the previous row's submit succeeded, so the number of
navigations is one plus the number of successful submits among all rows but
the last.  (The claim that every row is preceded by a navigation is refuted
by the counterexample: after a failed submit the next row is filled with no
navigation.) -/
theorem session_nav_structure (resolved : Nat → Nat → Bool)
    (submitOk : Nat → Bool) (rows : List (List Cell)) :
    (sessionTrace resolved submitOk rows).head? = some Ev.nav
    ∧ (sessionTrace resolved submitOk rows).count Ev.nav
        = 1 + ((List.range (rows.length - 1)).filter
            (fun i => submitOk i)).length := by
  refine ⟨rfl, ?_⟩
  rw [sessionTrace, List.count_cons, sessionGo_nav_count resolved submitOk rows 0,
    List.range_eq_range']
  simp [Nat.add_comm]

/-- C5 counterexample: two rows whose submits both fail produce a trace with
a single navigation — the second row is filled immediately after the first
row's failed submit, with no navigation to the target URL before it. -/
theorem session_no_renav_cex :
    sessionTrace resolvedAll submitFail rows2 =
      [Ev.nav, Ev.fillField 0 0 (some "x"), Ev.submit 0 false,
        Ev.fillField 1 0 (some "x"), Ev.submit 1 false]
    ∧ (sessionTrace resolvedAll submitFail rows2).count Ev.nav = 1 := by
  refine ⟨by decide, by decide⟩

theorem sessionGo_submit_mem (resolved : Nat → Nat → Bool)
    (submitOk : Nat → Bool) :
    ∀ (rows : List (List Cell)) (start k : Nat), k < rows.length →
      Ev.submit (start + k) (submitOk (start + k))
        ∈ sessionGo resolved submitOk start rows := by
  intro rows
  induction rows with
  | nil => intro start k h; simp at h
  | cons r rest ih =>
    intro start k h
    cases k with
    | zero =>
      rw [Nat.add_zero, sessionGo]
      exact List.mem_append_right _ (List.mem_cons_self _ _)
    | succ k2 =>
      have hk : k2 < rest.length := by
        simpa using Nat.lt_of_succ_lt_succ (by simpa using h)
      have hmem := ih (start + 1) k2 hk
      rw [show start + (k2 + 1) = (start + 1) + k2 by omega, sessionGo]
      exact List.mem_append_right _
        (List.mem_cons_of_mem _ (List.mem_append_right _ hmem))

/-- C8: a row's fill or submit failure never aborts the session — whatever
the per-field resolution outcomes and per-row submit outcomes are, every row
of the file reaches its submit attempt (so the loop advanced past every
earlier row regardless of its failures). -/
theorem session_never_aborts (resolved : Nat → Nat → Bool)
    (submitOk : Nat → Bool) (rows : List (List Cell)) (idx : Nat)
    (h : idx < rows.length) :
    Ev.submit idx (submitOk idx) ∈ sessionTrace resolved submitOk rows := by
  have hmem := sessionGo_submit_mem resolved submitOk rows 0 idx h
  rw [Nat.zero_add] at hmem
  exact List.mem_cons_of_mem _ hmem

/-- C8 witness: with every submit failing, the second row still reaches its
submit attempt. -/
theorem session_never_aborts_witness :
    Ev.submit 1 false ∈ sessionTrace resolvedAll submitFail rows2 :=
  session_never_aborts resolvedAll submitFail rows2 1 (by decide)

theorem filter_length_split (l : List String) (q : String → Bool) :
    (l.filter q).length + (l.filter fun x => !(q x)).length = l.length := by
  induction l with
  | nil => rfl
  | cons a t ih => by_cases h : q a <;> simp [List.filter_cons, h] <;> omega

theorem filter_count_split (l : List String) (q : String → Bool) (p : String) :
    (l.filter q).count p + (l.filter fun x => !(q x)).count p = l.count p := by
  induction l with
  | nil => rfl
  | cons a t ih =>
    by_cases h : q a <;> by_cases hb : (a == p) = true <;>
      simp [List.filter_cons, h, hb, List.count_cons, ih] <;> omega

theorem processBatchAux_count (ok : String → Bool) (maxTabs : Nat)
    (hm : 1 ≤ maxTabs) (p : String) :
    ∀ (fuel : Nat) (remaining succ fl : List String),
      remaining.length ≤ fuel →
      (processBatchAux ok maxTabs fuel remaining succ fl).2.1.count p
        + (processBatchAux ok maxTabs fuel remaining succ fl).2.2.count p
      = succ.count p + fl.count p + remaining.count p := by
  intro fuel
  induction fuel with
  | zero =>
    intro remaining succ fl hlen
    cases remaining with
    | nil => simp [processBatchAux]
    | cons a t => simp at hlen
  | succ f ih =>
    intro remaining succ fl hlen
    cases remaining with
    | nil => simp [processBatchAux]
    | cons a t =>
      rw [processBatchAux]
      have hlen2 : t.length + 1 ≤ f + 1 := by simpa using hlen
      by_cases h0 : (succ.length + fl.length == 0) = true
      · rw [if_pos h0]
        have hrec := ih ((a :: t).drop 20)
          (succ ++ ((a :: t).take 20).filter ok)
          (fl ++ ((a :: t).take 20).filter fun q => !(ok q))
          (by simp [List.length_drop]; omega)
        have hsplit := filter_count_split ((a :: t).take 20) ok p
        have htd : ((a :: t).take 20).count p + ((a :: t).drop 20).count p
            = (a :: t).count p := by
          rw [← List.count_append, List.take_append_drop]
        simp only [List.count_append] at hrec ⊢
        omega
      · rw [if_neg h0]
        have hrec := ih ((a :: t).drop maxTabs)
          (succ ++ ((a :: t).take maxTabs).filter ok)
          (fl ++ ((a :: t).take maxTabs).filter fun q => !(ok q))
          (by simp [List.length_drop]; omega)
        have hsplit := filter_count_split ((a :: t).take maxTabs) ok p
        have htd : ((a :: t).take maxTabs).count p
            + ((a :: t).drop maxTabs).count p = (a :: t).count p := by
          rw [← List.count_append, List.take_append_drop]
        simp only [List.count_append] at hrec ⊢
        omega

theorem processBatchAux_tail_sizes (ok : String → Bool) (maxTabs : Nat) :
    ∀ (fuel : Nat) (remaining succ fl : List String),
      1 ≤ succ.length + fl.length →
      ∀ b ∈ (processBatchAux ok maxTabs fuel remaining succ fl).1,
        b.length ≤ maxTabs := by
  intro fuel
  induction fuel with
  | zero =>
    intro remaining succ fl h1 b hb
    cases remaining <;> simp [processBatchAux] at hb
  | succ f ih =>
    intro remaining succ fl h1 b hb
    cases remaining with
    | nil => simp [processBatchAux] at hb
    | cons a t =>
      rw [processBatchAux] at hb
      have h0 : ¬((succ.length + fl.length == 0) = true) := by
        simp only [beq_iff_eq]
        omega
      rw [if_neg h0] at hb
      rw [List.mem_cons] at hb
      rcases hb with rfl | hb2
      · simp [List.length_take]
      · refine ih _ _ _ ?_ b hb2
        simp only [List.length_append]
        omega

theorem map_pair_fst (tag : String) :
    ∀ l : List String, (l.map fun s => (s, tag)).map Prod.fst = l := by
  intro l
  induction l with
  | nil => rfl
  | cons a t ih => simp [ih]

/-- C1: over any run with at least 20 input numbers and a positive tab
bound, the first batch contains exactly 20 numbers, every subsequent batch
contains at most maxTabs numbers, every input number appears in the
successful and failed lists together exactly as often as in the input (so
each distinct input exactly once), and the results file carries exactly those
numbers, each labeled success or failed. -/
theorem batch_partition (ok : String → Bool) (phones : List String)
    (maxTabs : Nat) (hm : 1 ≤ maxTabs) (hn : 20 ≤ phones.length) :
    (process_batch ok phones maxTabs).1.head?.map List.length = some 20
    ∧ (∀ b ∈ (process_batch ok phones maxTabs).1.tail, b.length ≤ maxTabs)
    ∧ (∀ p, (process_batch ok phones maxTabs).2.1.count p
          + (process_batch ok phones maxTabs).2.2.count p = phones.count p)
    ∧ (resultsRows (process_batch ok phones maxTabs).2.1
          (process_batch ok phones maxTabs).2.2).map Prod.fst
        = (process_batch ok phones maxTabs).2.1
            ++ (process_batch ok phones maxTabs).2.2
    ∧ ∀ r ∈ resultsRows (process_batch ok phones maxTabs).2.1
          (process_batch ok phones maxTabs).2.2,
        r.2 = "success" ∨ r.2 = "failed" := by
  refine ⟨?_, ?_, ?_, ?_, ?_⟩
  · cases phones with
    | nil => simp at hn
    | cons q qs =>
      have hn2 : 20 ≤ qs.length + 1 := by simpa using hn
      rw [show process_batch ok (q :: qs) maxTabs
          = processBatchAux ok maxTabs (qs.length + 1) (q :: qs) [] [] from rfl,
        processBatchAux]
      simp [List.length_take]
      omega
  · cases phones with
    | nil => simp at hn
    | cons q qs =>
      have hn2 : 20 ≤ qs.length + 1 := by simpa using hn
      rw [show process_batch ok (q :: qs) maxTabs
          = processBatchAux ok maxTabs (qs.length + 1) (q :: qs) [] [] from rfl,
        processBatchAux]
      simp only [List.length_nil, Nat.add_zero, Nat.zero_add, show ((0 : Nat) == 0) = true from rfl,
        if_true, List.tail_cons]
      refine processBatchAux_tail_sizes ok maxTabs _ _ _ _ ?_
      simp only [List.nil_append]
      rw [filter_length_split]
      simp only [List.length_take]
      omega
  · intro p
    have h := processBatchAux_count ok maxTabs hm p phones.length phones [] []
      (Nat.le_refl _)
    simpa [process_batch] using h
  · rw [resultsRows, List.map_append, map_pair_fst, map_pair_fst]
  · intro r hr
    rw [resultsRows, List.mem_append] at hr
    rcases hr with hr | hr <;> rw [List.mem_map] at hr <;>
      obtain ⟨x, _, rfl⟩ := hr
    · exact Or.inl rfl
    · exact Or.inr rfl

/-- C1 witness: twenty-five numbers (twenty copies of "a", five of "b") with
tab bound 20 give a first batch of exactly 20, and the number "b" appears in
the successful and failed lists together exactly as often as in the
input. -/
theorem batch_partition_witness :
    (process_batch okW phonesW 20).1.head?.map List.length = some 20
    ∧ (process_batch okW phonesW 20).2.1.count "b"
        + (process_batch okW phonesW 20).2.2.count "b" = phonesW.count "b" :=
  ⟨(batch_partition okW phonesW 20 (by decide) (by decide)).1,
    (batch_partition okW phonesW 20 (by decide) (by decide)).2.2.1 "b"⟩

end FormAutomation
